import Mathlib

/-!
Verification of the new-item detection and notification pipeline of the
AICTE internship bot (src/main.py and src/bot.py), shallowly embedded in
Lean 4.  Python machine behaviour is modelled as follows:

* dictionaries produced by the scrapers become the `Posting` structure
  (every key the pipeline reads is a field; the optional keys
  `description` and `details_url` become `Option String`);
* Python `set` objects are modelled by the list of their elements; the
  program only tests membership between load and save, for which the
  order is irrelevant, but `list(seen_ids)` observes the set's
  iteration order, which CPython does not tie to insertion order, so
  wherever that order matters it is passed in explicitly as a list that
  is a permutation of the set's elements;
* exceptions become `Except PyErr`, and code points where the Python
  program can raise (a source fetch, the post-aggregation phase, file
  I/O) take the raised-or-not outcome as an explicit argument;
* `hashlib.md5(...).hexdigest()` is implemented bit-faithfully over
  `Nat` with explicit reduction modulo 2^32.
-/

/-- Model of a Python exception value (only its message is observed). -/
structure PyErr where
  msg : String
deriving DecidableEq

/-! ## MD5 (hashlib.md5(...).hexdigest() on UTF-8 input) -/

/-- UTF-8 encoding of one character, as byte values. -/
def encodeUtf8Char (c : Char) : List Nat :=
  let n := c.toNat
  if n < 128 then [n]
  else if n < 2048 then [192 + n / 64, 128 + n % 64]
  else if n < 65536 then [224 + n / 4096, 128 + (n / 64) % 64, 128 + n % 64]
  else [240 + n / 262144, 128 + (n / 4096) % 64, 128 + (n / 64) % 64, 128 + n % 64]

/-- UTF-8 bytes of a string (the `.encode()` call in the Python source). -/
def utf8Bytes (s : String) : List Nat :=
  (s.data.map encodeUtf8Char).join

/-- Reduction modulo 2^32: all MD5 word arithmetic is 32-bit. -/
def m32 (x : Nat) : Nat := x % 4294967296

/-- 32-bit left rotation (operand assumed < 2^32). -/
def rotl32 (x s : Nat) : Nat := m32 (x * 2 ^ s) + x / 2 ^ (32 - s)

/-- 32-bit bitwise complement (operand assumed < 2^32). -/
def compl32 (x : Nat) : Nat := 4294967295 - x

def md5F (b c d : Nat) : Nat := (b &&& c) ||| (compl32 b &&& d)
def md5G (b c d : Nat) : Nat := (d &&& b) ||| (compl32 d &&& c)
def md5H (b c d : Nat) : Nat := b ^^^ c ^^^ d
def md5I (b c d : Nat) : Nat := c ^^^ (b ||| compl32 d)

/-- The 64 MD5 additive constants, floor(abs(sin(i+1)) * 2^32). -/
def md5K : List Nat :=
  [3614090360, 3905402710, 606105819, 3250441966, 4118548399, 1200080426,
   2821735955, 4249261313, 1770035416, 2336552879, 4294925233, 2304563134,
   1804603682, 4254626195, 2792965006, 1236535329, 4129170786, 3225465664,
   643717713, 3921069994, 3593408605, 38016083, 3634488961, 3889429448,
   568446438, 3275163606, 4107603335, 1163531501, 2850285829, 4243563512,
   1735328473, 2368359562, 4294588738, 2272392833, 1839030562, 4259657740,
   2763975236, 1272893353, 4139469664, 3200236656, 681279174, 3936430074,
   3572445317, 76029189, 3654602809, 3873151461, 530742520, 3299628645,
   4096336452, 1126891415, 2878612391, 4237533241, 1700485571, 2399980690,
   4293915773, 2240044497, 1873313359, 4264355552, 2734768916, 1309151649,
   4149444226, 3174756917, 718787259, 3951481745]

/-- The per-round left-rotation amounts. -/
def md5S : List Nat :=
  [7, 12, 17, 22, 7, 12, 17, 22, 7, 12, 17, 22, 7, 12, 17, 22,
   5, 9, 14, 20, 5, 9, 14, 20, 5, 9, 14, 20, 5, 9, 14, 20,
   4, 11, 16, 23, 4, 11, 16, 23, 4, 11, 16, 23, 4, 11, 16, 23,
   6, 10, 15, 21, 6, 10, 15, 21, 6, 10, 15, 21, 6, 10, 15, 21]

/-- MD5 padding: append 0x80, zero bytes to 56 mod 64, then the 64-bit
little-endian bit length. -/
def md5Pad (msg : List Nat) : List Nat :=
  let len := msg.length
  let z := (119 - len % 64) % 64
  msg ++ [128] ++ List.replicate z 0 ++
    (List.range 8).map (fun i => (len * 8 / 256 ^ i) % 256)

/-- Split a byte list into 64-byte blocks. -/
def chunk64 : List Nat → List (List Nat)
  | [] => []
  | x :: xs => ((x :: xs).take 64) :: chunk64 ((x :: xs).drop 64)
termination_by l => l.length
decreasing_by simp; omega

/-- The sixteen little-endian 32-bit words of one 64-byte block. -/
def blockWords (block : List Nat) : List Nat :=
  (List.range 16).map (fun j =>
    block.getD (4 * j) 0 + 256 * block.getD (4 * j + 1) 0 +
    65536 * block.getD (4 * j + 2) 0 + 16777216 * block.getD (4 * j + 3) 0)

/-- One of the 64 MD5 rounds. -/
def md5Round (M : List Nat) (st : Nat × Nat × Nat × Nat) (i : Nat) :
    Nat × Nat × Nat × Nat :=
  let a := st.1
  let b := st.2.1
  let c := st.2.2.1
  let d := st.2.2.2
  let f := if i < 16 then md5F b c d
    else if i < 32 then md5G b c d
    else if i < 48 then md5H b c d
    else md5I b c d
  let g := if i < 16 then i
    else if i < 32 then (5 * i + 1) % 16
    else if i < 48 then (3 * i + 5) % 16
    else (7 * i) % 16
  let tmp := m32 (a + f + md5K.getD i 0 + M.getD g 0)
  (d, m32 (b + rotl32 tmp (md5S.getD i 0)), b, c)

/-- MD5 compression of one block into the running state. -/
def md5Block (st : Nat × Nat × Nat × Nat) (block : List Nat) :
    Nat × Nat × Nat × Nat :=
  let M := blockWords block
  let r := (List.range 64).foldl (md5Round M) st
  (m32 (st.1 + r.1), m32 (st.2.1 + r.2.1),
   m32 (st.2.2.1 + r.2.2.1), m32 (st.2.2.2 + r.2.2.2))

def hexDigitChar (n : Nat) : Char :=
  "0123456789abcdef".data.getD n '0'

def byteHex (b : Nat) : String :=
  String.mk [hexDigitChar (b / 16), hexDigitChar (b % 16)]

/-- Little-endian hex rendering of one 32-bit word. -/
def wordHexLE (w : Nat) : String :=
  byteHex (w % 256) ++ byteHex (w / 256 % 256) ++
    byteHex (w / 65536 % 256) ++ byteHex (w / 16777216 % 256)

/-- hashlib.md5(s.encode()).hexdigest() -/
def md5hex (s : String) : String :=
  let st := (chunk64 (md5Pad (utf8Bytes s))).foldl md5Block
    (1732584193, 4023233417, 2562383102, 271733878)
  wordHexLE st.1 ++ wordHexLE st.2.1 ++ wordHexLE st.2.2.1 ++ wordHexLE st.2.2.2

/-! ## Posting data model -/

/-- Normalized internship posting, as built by the scrapers in
src/main.py (`_parse_html` / `_parse_internshala_html`).  The optional
dictionary keys read elsewhere in the pipeline (`description`,
`details_url`) are `Option`; `actively_hiring` defaults to false for
AICTE postings exactly as `internship.get('actively_hiring', False)`
does. -/
structure Posting where
  id : String
  platform : String
  name : String
  company : String
  stipend : String
  type : String
  location : String
  duration : String
  start_date : String
  apply_by : String
  details_url : Option String
  posted_on : String
  actively_hiring : Bool
  description : Option String
deriving DecidableEq

/-! ## Posting identity -/

/-- The identity scheme of src/main.py (both scrapers), line 140 / 280:
hashlib.md5(f"[self.name]-[company]-[name]-[posted_on]".encode()).hexdigest(). -/
def internship_id_main (platform company name posted_on : String) : String :=
  md5hex (platform ++ "-" ++ company ++ "-" ++ name ++ "-" ++ posted_on)

/-- Python str.replace(" ", "_"): space is a single character, so the
replacement is a per-character map. -/
def pyReplaceSpace (s : String) : String :=
  String.mk (s.data.map (fun c => if c == ' ' then '_' else c))

/-- The identity scheme of src/bot.py line 154:
f"[company]-[name]-[location]-[posted_on]".replace(" ", "_"). -/
def internship_id_bot (company name location posted_on : String) : String :=
  pyReplaceSpace (company ++ "-" ++ name ++ "-" ++ location ++ "-" ++ posted_on)

/-- The card-level text fields extracted in AICTEScraper._parse_html
before the posting dictionary is assembled. -/
structure AicteCard where
  name : String
  company : String
  internship_type : String
  posted_on : String
  location : String
  duration : String
  start_date : String
  stipend : String
  apply_by : String
  details_url : Option String
deriving DecidableEq

/-- Assembly of one AICTE posting from its card fields
(src/main.py lines 140-155). -/
def parseAicteCard (c : AicteCard) : Posting :=
  { id := internship_id_main "AICTE" c.company c.name c.posted_on
    platform := "AICTE"
    name := c.name
    company := c.company
    stipend := c.stipend
    type := c.internship_type
    location := c.location
    duration := c.duration
    start_date := c.start_date
    apply_by := c.apply_by
    details_url := c.details_url
    posted_on := c.posted_on
    actively_hiring := false
    description := none }

/-- The card-level text fields extracted in
InternshipBot.extract_internships (src/bot.py) before the id is built. -/
structure BotCard where
  name : String
  company : String
  internship_type : String
  posted_on : String
  location : String
  duration : String
  start_date : String
  stipend : String
  credits : String
  openings : String
  apply_by : String
deriving DecidableEq

/-- The id assigned to a bot.py card (src/bot.py line 154). -/
def botInternshipId (c : BotCard) : String :=
  internship_id_bot c.company c.name c.location c.posted_on

/-! ## Domain filter -/

/-- Python str.lower(), restricted to the per-character case mapping
(all strings handled by the bot are ASCII, where the two agree). -/
def pyLower (s : String) : String :=
  String.mk (s.data.map Char.toLower)

/-- needle occurs at the head of hay. -/
def listStartsWith : List Char → List Char → Bool
  | [], _ => true
  | _ :: _, [] => false
  | a :: as, b :: bs => a == b && listStartsWith as bs

def listContainsSub (needle hay : List Char) : Bool :=
  (List.range (hay.length + 1)).any (fun i => listStartsWith needle (hay.drop i))

/-- Python substring containment, needle in hay. -/
def strContainsSub (needle hay : String) : Bool :=
  listContainsSub needle.data hay.data

/-- The lowercased search text of filter_by_domain
(src/main.py line 59, src/bot.py line 183):
f"[name] [company] [description-or-empty]".lower(). -/
def searchText (i : Posting) : String :=
  pyLower (i.name ++ " " ++ i.company ++ " " ++ i.description.getD "")

/-- any(domain.lower() in search_text for domain in preferred_domains). -/
def domainMatches (terms : List String) (i : Posting) : Bool :=
  terms.any (fun d => strContainsSub (pyLower d) (searchText i))

/-- InternshipScraper.filter_by_domain (src/main.py lines 53-68) and the
identical InternshipBot.filter_by_domain (src/bot.py lines 178-192): the
loop appends exactly the postings whose search text matches some
preferred domain. -/
def filter_by_domain (terms : List String) (internships : List Posting) :
    List Posting :=
  internships.filter (domainMatches terms)

/-! ## Seen store -/

/-- Outcome of the attempt to read the seen-state file. -/
inductive ReadOutcome
  | missing
  | unreadable
  | malformed
  | ok (ids : List String)
deriving DecidableEq

/-- DualPlatformInternshipBot.load_seen_internships (src/main.py lines
349-358) and the identical InternshipBot.load_seen_internships
(src/bot.py lines 194-203): a missing file falls through the
os.path.exists guard, and an unreadable file or malformed JSON raises
inside the try and is caught; all three return set().  On success
set(data) is built; the set is modelled by its element list, since the
program only consults membership of the loaded value. -/
def load_seen_internships : ReadOutcome → List String
  | ReadOutcome.ok ids => ids
  | _ => []

/-- DualPlatformInternshipBot.save_seen_internships (src/main.py lines
360-369): seen_list = list(seen_ids)[-2000:].  The argument is the
iteration order of the set; the slice keeps its last 2000 entries. -/
def save_seen_internships (order : List String) : List String :=
  order.drop (order.length - 2000)

/-- InternshipBot.save_seen_internships (src/bot.py lines 205-214):
same operation with capacity 1000. -/
def bot_save_seen_internships (order : List String) : List String :=
  order.drop (order.length - 1000)

/-- DualPlatformInternshipBot.get_new_internships, the comprehension
[i for i in internships if i['id'] not in seen] (src/main.py line 375,
src/bot.py line 220).  seen is the set loaded at the start of the call
and is not mutated until after the comprehension finishes. -/
def get_new_internships (seen : List String) (internships : List Posting) :
    List Posting :=
  internships.filter (fun i => !(seen.contains i.id))

/-- The update loop that follows the comprehension (src/main.py lines
378-379): for internship in new_internships: seen.add(internship['id']).
The set is modelled by its element list; add appends when absent. -/
def updateSeen (seen : List String) (nw : List Posting) : List String :=
  nw.foldl (fun s p => if s.contains p.id then s else s ++ [p.id]) seen

/-! ## Pipeline runner (DualPlatformInternshipBot.run_check) -/

/-- One row of platform_stats: the dict literal at src/main.py lines
519-523 / 530. -/
structure SourceStats where
  found : Nat
  filtered : Nat
  newCount : Nat
deriving DecidableEq

/-- One configured scraper together with the outcome of its
fetch_internships() call in this cycle: Except.error models an
exception raised during fetch-and-filter. -/
structure SourceRun where
  name : String
  fetchRes : Except PyErr (List Posting)

/-- Python dict assignment d[k] = v: replaces the value at an existing
key in place, otherwise appends the pair (insertion order preserved). -/
def dictSet (d : List (String × SourceStats)) (k : String) (v : SourceStats) :
    List (String × SourceStats) :=
  match d with
  | [] => [(k, v)]
  | kv :: rest => if kv.1 == k then (k, v) :: rest else kv :: dictSet rest k v

/-- Python dict lookup d[k]. -/
def dictGet (d : List (String × SourceStats)) (k : String) : Option SourceStats :=
  match d with
  | [] => none
  | kv :: rest => if kv.1 == k then some kv.2 else dictGet rest k

/-- The per-source loop of run_check (src/main.py lines 508-530): each
scraper is fetched and filtered inside its own try; on an exception the
stats row is zeroed and nothing is aggregated; otherwise the filtered
postings are appended to all_internships and the found/filtered counts
recorded (new is filled in later). -/
def processStep (terms : List String)
    (acc : List Posting × List (String × SourceStats)) (s : SourceRun) :
    List Posting × List (String × SourceStats) :=
  match s.fetchRes with
  | Except.error _ => (acc.1, dictSet acc.2 s.name (SourceStats.mk 0 0 0))
  | Except.ok raw =>
      let filtered := filter_by_domain terms raw
      (acc.1 ++ filtered,
       dictSet acc.2 s.name (SourceStats.mk raw.length filtered.length 0))

def processSources (terms : List String) (sources : List SourceRun) :
    List Posting × List (String × SourceStats) :=
  sources.foldl (processStep terms) ([], [])

/-- The stats update loop (src/main.py lines 536-539): for each new
internship, bump the new counter of its platform when that platform has
a stats row. -/
def bumpStep (st : List (String × SourceStats)) (p : Posting) :
    List (String × SourceStats) :=
  match dictGet st p.platform with
  | some s => dictSet st p.platform (SourceStats.mk s.found s.filtered (s.newCount + 1))
  | none => st

def bumpNew (st : List (String × SourceStats)) (nw : List Posting) :
    List (String × SourceStats) :=
  nw.foldl bumpStep st

/-- The notification loop (src/main.py lines 542-550): sent_count is
incremented exactly when send_telegram_message_with_apply returns True. -/
def notifyLoop (sendOK : Posting → Bool) (nw : List Posting) : Nat :=
  nw.foldl (fun c p => if sendOK p then c + 1 else c) 0

/-- All inputs of one run_check cycle, including the outcomes of the
external effects it performs: each source's fetch result, the
seen-state read, the iteration order of the updated seen set, the
success of each Telegram send, whether the seen-state write fails, and
an exception (if any) raised by the post-aggregation phase
(deduplication, notification or summary infrastructure) — the phase
outside the per-source try blocks. -/
structure CycleEnv where
  terms : List String
  sources : List SourceRun
  readRes : ReadOutcome
  ord : List String
  sendOK : Posting → Bool
  saveFails : Bool
  postFault : Option PyErr

/-- Everything observable about one run_check call. -/
structure CycleOutcome where
  statsFinal : List (String × SourceStats)
  newPostings : List Posting
  sentCount : Nat
  summaryTotalNew : Option Nat
  persisted : Option (List String)
  errNotifyAttempted : Bool
  result : Except PyErr Unit

/-- DualPlatformInternshipBot.run_check (src/main.py lines 498-579).
The per-source loop never raises past its own try.  If the
post-aggregation phase raises, the outer except at line 559 catches the
exception once, attempts the error notification (the inner try at lines
562-578 swallows any failure of that attempt), and then re-raises at
line 579, so the exception leaves run_check.  Otherwise the cycle
deduplicates, persists (a write failure is swallowed inside
save_seen_internships), notifies, and hands sent_count to send_summary. -/
def run_check (env : CycleEnv) : CycleOutcome :=
  let ps := processSources env.terms env.sources
  match env.postFault with
  | some e =>
      { statsFinal := ps.2, newPostings := [], sentCount := 0,
        summaryTotalNew := none, persisted := none,
        errNotifyAttempted := true, result := Except.error e }
  | none =>
      let seen := load_seen_internships env.readRes
      let nw := get_new_internships seen ps.1
      let stats1 := bumpNew ps.2 nw
      let sent := notifyLoop env.sendOK nw
      { statsFinal := stats1, newPostings := nw, sentCount := sent,
        summaryTotalNew := some sent,
        persisted := if env.saveFails then none else some (save_seen_internships env.ord),
        errNotifyAttempted := false, result := Except.ok () }

/-- The scheduling loop of start_scheduler (src/main.py lines 581-597):
the initial run_check call and every schedule.run_pending() tick invoke
run_check with no surrounding try, and the schedule library propagates
exceptions raised by the job, so an exception leaving run_check leaves
the loop and the process.  runCycles runs the given cycles in order and
returns how many completed, or the first propagated exception. -/
def runCycles : List CycleEnv → Except PyErr Nat
  | [] => Except.ok 0
  | env :: rest =>
      match (run_check env).result with
      | Except.error e => Except.error e
      | Except.ok _ =>
          match runCycles rest with
          | Except.error e => Except.error e
          | Except.ok n => Except.ok (n + 1)

/-! ## Message formatting -/

/-- The platform_emoji dict lookup with default (src/main.py lines
388-393). -/
def platformEmoji (platform : String) : String :=
  if platform == "AICTE" then "🏛️"
  else if platform == "Internshala" then "💼"
  else "📋"

/-- The hashtag built from the company name (src/main.py line 424):
company.replace(' ', '').replace('-', '').replace('_', '').replace('.', '')[:20]. -/
def companyTag (company : String) : String :=
  String.mk ((company.data.filter
    (fun c => !(c == ' ' || c == '-' || c == '_' || c == '.'))).take 20)

/-- Everything format_telegram_message appends before the Found
timestamp (src/main.py lines 388-419): the base block plus the
conditional Type / Start Date / Apply By / Posted / Actively Hiring
lines. -/
def formatHead (i : Posting) : String :=
  let base := platformEmoji i.platform ++ " *New " ++ i.platform ++
    " Internship!*\n\n📋 *Role:* " ++ i.name ++
    "\n🏢 *Company:* " ++ i.company ++
    "\n💰 *Stipend:* " ++ i.stipend ++
    "\n📍 *Location:* " ++ i.location ++
    "\n⏰ *Duration:* " ++ i.duration
  let m1 := if i.type == "N/A" || i.type == "Internship" then base
    else base ++ "\n💼 *Type:* " ++ i.type
  let m2 := if i.start_date == "N/A" then m1
    else m1 ++ "\n📅 *Start Date:* " ++ i.start_date
  let m3 := if i.apply_by == "N/A" then m2
    else m2 ++ "\n⚡ *Apply By:* " ++ i.apply_by
  let m4 := if i.posted_on == "N/A" then m3
    else m3 ++ "\n🕐 *Posted:* " ++ i.posted_on
  if i.actively_hiring then m4 ++ "\n🔥 *Actively Hiring!*" else m4

/-- DualPlatformInternshipBot.format_telegram_message (src/main.py lines
386-427).  now is the datetime.now().strftime('%Y-%m-%d %H:%M:%S IST')
string the function reads from the clock at line 421. -/
def format_telegram_message (i : Posting) (now : String) : String :=
  formatHead i ++ "\n\n🔍 Found: " ++ now ++
    "\n\n#" ++ i.platform ++ "Internship #" ++ companyTag i.company

/-! ## Helper lemmas -/

theorem string_data_append (s t : String) : (s ++ t).data = s.data ++ t.data := by
  cases s
  cases t
  rfl

theorem string_data_inj {s t : String} (h : s.data = t.data) : s = t := by
  cases s
  cases t
  exact congrArg String.mk h

theorem contains_iff_mem (l : List String) (x : String) :
    l.contains x = true ↔ x ∈ l := by
  simp [List.contains]

theorem listStartsWith_iff (n : List Char) : ∀ l : List Char,
    listStartsWith n l = true ↔ ∃ post, l = n ++ post := by
  induction n with
  | nil => intro l; simp [listStartsWith]
  | cons a as ih =>
    intro l
    cases l with
    | nil =>
      simp [listStartsWith]
    | cons b bs =>
      simp only [listStartsWith, Bool.and_eq_true, beq_iff_eq, ih, List.cons_append,
        List.cons.injEq]
      constructor
      · rintro ⟨rfl, post, rfl⟩
        exact ⟨post, rfl, rfl⟩
      · rintro ⟨post, rfl, rfl⟩
        exact ⟨rfl, post, rfl⟩

theorem listContainsSub_iff (n h : List Char) :
    listContainsSub n h = true ↔ ∃ pre post, h = pre ++ n ++ post := by
  unfold listContainsSub
  rw [List.any_eq_true]
  constructor
  · rintro ⟨i, _, hsw⟩
    obtain ⟨post, hpost⟩ := (listStartsWith_iff n (h.drop i)).mp hsw
    refine ⟨h.take i, post, ?_⟩
    have hh := List.take_append_drop i h
    rw [hpost] at hh
    rw [List.append_assoc]
    exact hh.symm
  · rintro ⟨pre, post, rfl⟩
    refine ⟨pre.length, ?_, ?_⟩
    · rw [List.mem_range]
      simp [List.length_append]
      omega
    · rw [listStartsWith_iff]
      refine ⟨post, ?_⟩
      rw [List.append_assoc, List.drop_left]

theorem dictGet_dictSet_self (d : List (String × SourceStats)) (k : String)
    (v : SourceStats) : dictGet (dictSet d k v) k = some v := by
  induction d with
  | nil => simp [dictSet, dictGet]
  | cons kv rest ih =>
    by_cases h : kv.1 = k
    · simp [dictSet, dictGet, h]
    · simp [dictSet, dictGet, h, ih]

theorem dictGet_dictSet_ne (d : List (String × SourceStats)) (k k' : String)
    (v : SourceStats) (h : k' ≠ k) :
    dictGet (dictSet d k' v) k = dictGet d k := by
  induction d with
  | nil => simp [dictSet, dictGet, h]
  | cons kv rest ih =>
    by_cases hkv : kv.1 = k'
    · simp [dictSet, dictGet, hkv, h]
    · by_cases hk : kv.1 = k
      · simp [dictSet, dictGet, hkv, hk, Ne.symm h]
      · simp [dictSet, dictGet, hkv, hk, ih]

theorem mem_updateSeen_of_mem (nw : List Posting) : ∀ (seen : List String)
    (x : String), x ∈ seen → x ∈ updateSeen seen nw := by
  induction nw with
  | nil => intro seen x hx; exact hx
  | cons p t ih =>
    intro seen x hx
    simp only [updateSeen, List.foldl_cons] at *
    apply ih
    split
    · exact hx
    · exact List.mem_append_left _ hx

theorem id_mem_updateSeen (nw : List Posting) : ∀ (seen : List String)
    (p : Posting), p ∈ nw → p.id ∈ updateSeen seen nw := by
  induction nw with
  | nil => intro seen p hp; cases hp
  | cons q t ih =>
    intro seen p hp
    rcases List.mem_cons.mp hp with rfl | h
    · simp only [updateSeen, List.foldl_cons]
      apply mem_updateSeen_of_mem
      split
      · next hcon => exact (contains_iff_mem _ _).mp hcon
      · exact List.mem_append_right _ (List.mem_singleton_self _)
    · simp only [updateSeen, List.foldl_cons]
      exact ih _ p h

def sourceContribution (terms : List String) (s : SourceRun) : List Posting :=
  match s.fetchRes with
  | Except.error _ => []
  | Except.ok raw => filter_by_domain terms raw

def sourceRecordedStats (terms : List String) (s : SourceRun) : SourceStats :=
  match s.fetchRes with
  | Except.error _ => SourceStats.mk 0 0 0
  | Except.ok raw => SourceStats.mk raw.length (filter_by_domain terms raw).length 0

def statsFold (terms : List String) (st : List (String × SourceStats))
    (sources : List SourceRun) : List (String × SourceStats) :=
  sources.foldl (fun st s => dictSet st s.name (sourceRecordedStats terms s)) st

theorem processStep_eq (terms : List String)
    (acc : List Posting × List (String × SourceStats)) (s : SourceRun) :
    processStep terms acc s =
      (acc.1 ++ sourceContribution terms s,
       dictSet acc.2 s.name (sourceRecordedStats terms s)) := by
  cases h : s.fetchRes <;>
    simp [processStep, sourceContribution, sourceRecordedStats, h]

theorem processSources_spec (terms : List String) (sources : List SourceRun) :
    ∀ acc, sources.foldl (processStep terms) acc =
      (acc.1 ++ (sources.map (sourceContribution terms)).join,
       statsFold terms acc.2 sources) := by
  induction sources with
  | nil => intro acc; simp [statsFold]
  | cons s t ih =>
    intro acc
    rw [List.foldl_cons, processStep_eq, ih]
    simp [statsFold, List.append_assoc]

theorem statsFold_get_of_not_mem (terms : List String) (sources : List SourceRun) :
    ∀ (st : List (String × SourceStats)) (k : String),
    (∀ s ∈ sources, s.name ≠ k) →
    dictGet (statsFold terms st sources) k = dictGet st k := by
  induction sources with
  | nil => intro st k _; rfl
  | cons s t ih =>
    intro st k hk
    rw [statsFold, List.foldl_cons]
    rw [show List.foldl _ _ t =
      statsFold terms (dictSet st s.name (sourceRecordedStats terms s)) t from rfl]
    rw [ih _ _ (fun s hs => hk s (List.mem_cons_of_mem _ hs))]
    exact dictGet_dictSet_ne _ _ _ _ (hk s (List.mem_cons_self _ _))

theorem dictGet_bumpStep_ne (st : List (String × SourceStats)) (p : Posting)
    (k : String) (h : p.platform ≠ k) :
    dictGet (bumpStep st p) k = dictGet st k := by
  cases hq : dictGet st p.platform with
  | none => simp [bumpStep, hq]
  | some s => simp [bumpStep, hq, dictGet_dictSet_ne _ _ _ _ h]

theorem bumpNew_get_of_platform_ne (nw : List Posting) :
    ∀ (st : List (String × SourceStats)) (k : String),
    (∀ p ∈ nw, p.platform ≠ k) →
    dictGet (bumpNew st nw) k = dictGet st k := by
  induction nw with
  | nil => intro st k _; rfl
  | cons p t ih =>
    intro st k h
    rw [bumpNew, List.foldl_cons]
    rw [show List.foldl _ _ t = bumpNew (bumpStep st p) t from rfl]
    rw [ih _ _ (fun q hq => h q (List.mem_cons_of_mem _ hq))]
    exact dictGet_bumpStep_ne _ _ _ (h p (List.mem_cons_self _ _))

theorem bumpNew_get (nw : List Posting) :
    ∀ (st : List (String × SourceStats)) (P : String) (s0 : SourceStats),
    dictGet st P = some s0 →
    dictGet (bumpNew st nw) P =
      some (SourceStats.mk s0.found s0.filtered
        (s0.newCount + nw.countP (fun p => p.platform == P))) := by
  induction nw with
  | nil =>
    intro st P s0 h
    simpa using h
  | cons p t ih =>
    intro st P s0 h
    rw [bumpNew, List.foldl_cons,
      show List.foldl _ _ t = bumpNew (bumpStep st p) t from rfl]
    by_cases hp : p.platform = P
    · have hbeq : (p.platform == P) = true := beq_iff_eq.mpr hp
      have hstep : bumpStep st p =
          dictSet st P (SourceStats.mk s0.found s0.filtered (s0.newCount + 1)) := by
        simp [bumpStep, hp, h]
      rw [hstep, ih _ _ _ (dictGet_dictSet_self _ _ _)]
      simp only [List.countP_cons, hbeq, if_true, Option.some.injEq, SourceStats.mk.injEq]
      exact ⟨trivial, trivial, by omega⟩
    · have hstep : dictGet (bumpStep st p) P = some s0 := by
        rw [dictGet_bumpStep_ne _ _ _ hp]
        exact h
      rw [ih _ _ _ hstep]
      have : (p.platform == P) = false := beq_eq_false_iff_ne.mpr hp
      simp [List.countP_cons, this]

theorem notifyLoop_eq_countP (sendOK : Posting → Bool) (nw : List Posting) :
    notifyLoop sendOK nw = nw.countP sendOK := by
  suffices h : ∀ c, nw.foldl (fun c p => if sendOK p then c + 1 else c) c =
      c + nw.countP sendOK by
    simpa [notifyLoop] using h 0
  induction nw with
  | nil => intro c; simp
  | cons p t ih =>
    intro c
    by_cases hp : sendOK p <;> simp [List.countP_cons, hp, ih] <;> omega

/-! ## Concrete sample data used by witnesses and counterexamples -/

def dupPostingA : Posting :=
  { id := "dup", platform := "AICTE", name := "ML Intern", company := "Acme",
    stipend := "5000", type := "N/A", location := "Delhi",
    duration := "3 Months", start_date := "N/A", apply_by := "N/A",
    details_url := none, posted_on := "01-01-2025",
    actively_hiring := false, description := none }

def dupPostingB : Posting :=
  { dupPostingA with location := "Mumbai", stipend := "8000" }

/-! ## C6 -/

/-- C6: filter_by_domain returns exactly the postings whose lowercased
"name company description-or-empty" text (the fields joined by single
spaces) contains some lowercased interest term as a contiguous
substring, and an empty interest-term list yields the empty result for
every input. -/
theorem filter_by_domain_characterization (terms : List String)
    (ps : List Posting) :
    (∀ p, p ∈ filter_by_domain terms ps ↔
      p ∈ ps ∧ ∃ t ∈ terms, ∃ pre post,
        (searchText p).data = pre ++ (pyLower t).data ++ post) ∧
    filter_by_domain [] ps = [] := by
  constructor
  · intro p
    simp only [filter_by_domain, List.mem_filter, domainMatches, List.any_eq_true,
      strContainsSub, listContainsSub_iff]
  · simp [filter_by_domain, domainMatches]

/-! ## C1 -/

/-- C1 (amended): every occurrence of an id that is absent from the
loaded seen set survives the deduplication comprehension — the count of
postings with that id among the reported new postings equals its count
in the whole batch, so a within-batch duplicate is reported twice, not
once. -/
theorem get_new_reports_every_unseen_occurrence (seen : List String)
    (batch : List Posting) (g : String) (hg : seen.contains g = false) :
    (get_new_internships seen batch).countP (fun p => p.id == g) =
      batch.countP (fun p => p.id == g) := by
  rw [get_new_internships, List.countP_filter]
  apply List.countP_congr
  intro a _
  by_cases h : a.id = g
  · have hgm : g ∉ seen := by
      intro hm
      have hc := (contains_iff_mem seen g).mpr hm
      rw [hc] at hg
      simp at hg
    simp [h, hgm]
  · have : (a.id == g) = false := beq_eq_false_iff_ne.mpr h
    simp [this]

theorem get_new_reports_every_unseen_occurrence_witness :
    (["other"] : List String).contains "dup" = false ∧
    (get_new_internships ["other"] [dupPostingA, dupPostingB]).countP
      (fun p => p.id == "dup") = 2 := by
  refine ⟨by decide, ?_⟩
  rw [get_new_reports_every_unseen_occurrence ["other"] [dupPostingA, dupPostingB]
    "dup" (by decide)]
  decide

/-- C1 counterexample to the claim as stated: a batch with two distinct
postings carrying the same derived id, that id absent from the loaded
seen set, makes the deduplication step report both of them as new, not
exactly one. -/
theorem get_new_within_cycle_duplicates_both_reported :
    dupPostingA.id = dupPostingB.id ∧ dupPostingA ≠ dupPostingB ∧
    get_new_internships [] [dupPostingA, dupPostingB] =
      [dupPostingA, dupPostingB] := by
  exact ⟨rfl, by decide, by decide⟩

/-! ## C2 -/

/-- C2 (amended): every list save_seen_internships writes has at most
2000 entries (1000 for the bot.py variant), whatever set iteration
order it is given; since each cycle persists exactly one such list, the
persisted seen-state size never exceeds the cap after any number of
cycles.  Which entries survive the truncation is determined by the
set's iteration order, not by insertion recency. -/
theorem save_seen_internships_bounded (ord : List String) :
    (save_seen_internships ord).length ≤ 2000 ∧
    (bot_save_seen_internships ord).length ≤ 1000 := by
  constructor <;> simp [save_seen_internships, bot_save_seen_internships] <;> omega

/-! ## C4 -/

/-- C4 (amended, main.py part): the id given to a parsed AICTE card by
src/main.py is a function of only the source name (fixed "AICTE"), the
company, the title and the posted-on field — two cards that agree on
those produce equal ids no matter how the other fields differ. -/
theorem aicte_id_function_of_four_fields (c1 c2 : AicteCard)
    (hn : c1.name = c2.name) (hc : c1.company = c2.company)
    (hp : c1.posted_on = c2.posted_on) :
    (parseAicteCard c1).id = (parseAicteCard c2).id := by
  simp [parseAicteCard, internship_id_main, hn, hc, hp]

def cardStipendA : AicteCard :=
  { name := "ML Intern", company := "Acme", internship_type := "WFH",
    posted_on := "01-01-2025", location := "Delhi", duration := "2 Months",
    start_date := "N/A", stipend := "5000", apply_by := "N/A",
    details_url := none }

def cardStipendB : AicteCard :=
  { cardStipendA with
    stipend := "9000"
    location := "Mumbai"
    duration := "6 Months" }

theorem aicte_id_function_of_four_fields_witness :
    cardStipendA.name = cardStipendB.name ∧
    cardStipendA.company = cardStipendB.company ∧
    cardStipendA.posted_on = cardStipendB.posted_on ∧
    cardStipendA.stipend ≠ cardStipendB.stipend ∧
    (parseAicteCard cardStipendA).id = (parseAicteCard cardStipendB).id :=
  ⟨rfl, rfl, rfl, by decide,
   aicte_id_function_of_four_fields cardStipendA cardStipendB rfl rfl rfl⟩

def botCardDelhi : BotCard :=
  { name := "ML Intern", company := "Acme", internship_type := "WFH",
    posted_on := "01-01-2025", location := "New Delhi",
    duration := "2 Months", start_date := "N/A", stipend := "5000",
    credits := "", openings := "5", apply_by := "N/A" }

def botCardMumbai : BotCard :=
  { botCardDelhi with location := "Mumbai" }

/-- C4 counterexample: in src/bot.py the derived id additionally
depends on the location — two cards from the same source agreeing on
company, title and posted-on but differing only in location receive
different ids, so the id is not a function of only the four claimed
fields. -/
theorem bot_id_differs_on_location_only :
    botCardDelhi.name = botCardMumbai.name ∧
    botCardDelhi.company = botCardMumbai.company ∧
    botCardDelhi.posted_on = botCardMumbai.posted_on ∧
    botInternshipId botCardDelhi ≠ botInternshipId botCardMumbai := by
  exact ⟨rfl, rfl, rfl, by decide⟩

/-! ## C8 -/

/-- C8 (amended): format_telegram_message is a pure function of the
posting and of the clock string it embeds — two calls agree exactly
when the embedded datetime.now() strings agree, so message text is
deterministic in the posting for a fixed call time but not independent
of when the function is called. -/
theorem format_message_determined_by_posting_and_time (i : Posting)
    (t1 t2 : String) :
    format_telegram_message i t1 = format_telegram_message i t2 ↔ t1 = t2 := by
  constructor
  · intro h
    have h' := congrArg String.data h
    simp only [format_telegram_message, string_data_append, List.append_assoc] at h'
    have h2 := List.append_cancel_left h'
    have h3 := List.append_cancel_left h2
    have h4 := List.append_cancel_right h3
    exact string_data_inj h4
  · intro h
    rw [h]

set_option maxRecDepth 4000 in
/-- C8 counterexample to the claim as stated: the same posting
formatted at two different clock readings yields different message
texts, because the Found line embeds datetime.now(). -/
theorem format_message_depends_on_time :
    format_telegram_message dupPostingA "2025-01-01 10:00:00 IST" ≠
      format_telegram_message dupPostingA "2025-01-02 10:00:00 IST" := by
  decide

/-! ## C9 -/

/-- C9: a missing, unreadable, or malformed seen-state file makes
load_seen_internships return the empty set instead of raising, so the
whole batch is treated as new in that cycle; and a failing seen-state
write changes nothing observable about the rest of the cycle — the
call does not raise and notification and summary proceed exactly as
with a successful write. -/
theorem persistence_failures_nonfatal :
    (load_seen_internships ReadOutcome.missing = [] ∧
     load_seen_internships ReadOutcome.unreadable = [] ∧
     load_seen_internships ReadOutcome.malformed = []) ∧
    (∀ batch, get_new_internships (load_seen_internships ReadOutcome.malformed)
      batch = batch) ∧
    (∀ terms sources readRes ord sendOK postFault,
      (run_check (CycleEnv.mk terms sources readRes ord sendOK true postFault)).result =
        (run_check (CycleEnv.mk terms sources readRes ord sendOK false postFault)).result ∧
      (run_check (CycleEnv.mk terms sources readRes ord sendOK true postFault)).sentCount =
        (run_check (CycleEnv.mk terms sources readRes ord sendOK false postFault)).sentCount ∧
      (run_check (CycleEnv.mk terms sources readRes ord sendOK true postFault)).summaryTotalNew =
        (run_check (CycleEnv.mk terms sources readRes ord sendOK false postFault)).summaryTotalNew ∧
      (run_check (CycleEnv.mk terms sources readRes ord sendOK true postFault)).statsFinal =
        (run_check (CycleEnv.mk terms sources readRes ord sendOK false postFault)).statsFinal) ∧
    (∀ terms sources readRes ord sendOK,
      (run_check (CycleEnv.mk terms sources readRes ord sendOK true none)).result =
        Except.ok () ∧
      (run_check (CycleEnv.mk terms sources readRes ord sendOK true none)).summaryTotalNew =
        some ((run_check (CycleEnv.mk terms sources readRes ord sendOK true none)).sentCount)) := by
  refine ⟨⟨rfl, rfl, rfl⟩, ?_, ?_, ?_⟩
  · intro batch
    have h0 : load_seen_internships ReadOutcome.malformed = [] := rfl
    rw [h0, get_new_internships]
    induction batch with
    | nil => rfl
    | cons p t ih => rw [List.filter_cons_of_pos] <;> simp [ih]
  · intro terms sources readRes ord sendOK postFault
    cases postFault <;> exact ⟨rfl, rfl, rfl, rfl⟩
  · intro terms sources readRes ord sendOK
    exact ⟨rfl, rfl⟩

/-! ## C3 -/

/-- C3 (amended): when the post-aggregation phase of run_check raises,
the outer except catches the exception exactly once and attempts the
error notification, but the handler then re-raises: run_check
propagates the exception, the scheduling loop does not catch it, and no
later cycle runs. -/
theorem run_check_error_notify_then_reraise (env : CycleEnv) (e : PyErr)
    (hf : env.postFault = some e) :
    (run_check env).errNotifyAttempted = true ∧
    (run_check env).result = Except.error e ∧
    ∀ rest, runCycles (env :: rest) = Except.error e := by
  refine ⟨?_, ?_, ?_⟩
  · simp [run_check, hf]
  · simp [run_check, hf]
  · intro rest
    have hres : (run_check env).result = Except.error e := by simp [run_check, hf]
    simp [runCycles, hres]

def faultyEnv : CycleEnv :=
  { terms := ["ml"], sources := [], readRes := ReadOutcome.missing,
    ord := [], sendOK := fun _ => true, saveFails := false,
    postFault := some (PyErr.mk "dedup infrastructure failure") }

def healthyEnv : CycleEnv :=
  { terms := ["ml"], sources := [], readRes := ReadOutcome.missing,
    ord := [], sendOK := fun _ => true, saveFails := false,
    postFault := none }

theorem run_check_error_notify_then_reraise_witness :
    faultyEnv.postFault = some (PyErr.mk "dedup infrastructure failure") ∧
    (run_check faultyEnv).errNotifyAttempted = true ∧
    (run_check faultyEnv).result =
      Except.error (PyErr.mk "dedup infrastructure failure") ∧
    runCycles [faultyEnv] =
      Except.error (PyErr.mk "dedup infrastructure failure") := by
  have h := run_check_error_notify_then_reraise faultyEnv
    (PyErr.mk "dedup infrastructure failure") rfl
  exact ⟨rfl, h.1, h.2.1, h.2.2 []⟩

/-- C3 counterexample to the claim as stated: two healthy cycles both
run (the loop completes 2 cycles), but when the first cycle's
post-aggregation phase raises, the propagated exception terminates the
loop before the second, healthy cycle — the next scheduled cycle does
not run. -/
theorem run_check_failure_kills_next_cycle :
    runCycles [healthyEnv, healthyEnv] = Except.ok 2 ∧
    runCycles [faultyEnv, healthyEnv] =
      Except.error (PyErr.mk "dedup infrastructure failure") :=
  ⟨rfl, rfl⟩

/-! ## C5 -/

/-- Unfolding of run_check for a cycle whose post-aggregation phase
does not raise. -/
theorem run_check_none (terms : List String) (sources : List SourceRun)
    (readRes : ReadOutcome) (ord : List String) (sendOK : Posting → Bool)
    (saveFails : Bool) :
    run_check (CycleEnv.mk terms sources readRes ord sendOK saveFails none) =
      { statsFinal := bumpNew (processSources terms sources).2
          (get_new_internships (load_seen_internships readRes)
            (processSources terms sources).1),
        newPostings := get_new_internships (load_seen_internships readRes)
          (processSources terms sources).1,
        sentCount := notifyLoop sendOK
          (get_new_internships (load_seen_internships readRes)
            (processSources terms sources).1),
        summaryTotalNew := some (notifyLoop sendOK
          (get_new_internships (load_seen_internships readRes)
            (processSources terms sources).1)),
        persisted := if saveFails then none
          else some (save_seen_internships ord),
        errNotifyAttempted := false,
        result := Except.ok () } := rfl

/-- C5: when one source's fetch-and-filter raises, the per-source try
catches it: the failing source contributes nothing to the aggregated
postings (the aggregate equals the run without it), its stats row is
recorded as found 0 / filtered 0 / new 0, the other sources' postings
are still deduplicated and notified identically, and the failing
source's row is still zero in the final summary stats. -/
theorem source_failure_isolated (terms : List String) (pre post : List SourceRun)
    (bad : SourceRun) (e : PyErr) (readRes : ReadOutcome) (ord : List String)
    (sendOK : Posting → Bool) (saveFails : Bool)
    (hbad : bad.fetchRes = Except.error e)
    (hname : ∀ s ∈ pre ++ post, s.name ≠ bad.name)
    (hplat : ∀ s ∈ pre ++ post, ∀ raw, s.fetchRes = Except.ok raw →
      ∀ p ∈ raw, p.platform = s.name) :
    (processSources terms (pre ++ bad :: post)).1 =
      (processSources terms (pre ++ post)).1 ∧
    dictGet (processSources terms (pre ++ bad :: post)).2 bad.name =
      some (SourceStats.mk 0 0 0) ∧
    (run_check (CycleEnv.mk terms (pre ++ bad :: post) readRes ord sendOK
        saveFails none)).newPostings =
      (run_check (CycleEnv.mk terms (pre ++ post) readRes ord sendOK
        saveFails none)).newPostings ∧
    (run_check (CycleEnv.mk terms (pre ++ bad :: post) readRes ord sendOK
        saveFails none)).sentCount =
      (run_check (CycleEnv.mk terms (pre ++ post) readRes ord sendOK
        saveFails none)).sentCount ∧
    dictGet (run_check (CycleEnv.mk terms (pre ++ bad :: post) readRes ord
        sendOK saveFails none)).statsFinal bad.name =
      some (SourceStats.mk 0 0 0) := by
  have hcontrib : sourceContribution terms bad = [] := by
    simp [sourceContribution, hbad]
  have hrec : sourceRecordedStats terms bad = SourceStats.mk 0 0 0 := by
    simp [sourceRecordedStats, hbad]
  have hfst : (processSources terms (pre ++ bad :: post)).1 =
      (processSources terms (pre ++ post)).1 := by
    rw [processSources, processSources, processSources_spec, processSources_spec]
    simp [hcontrib]
  have hsnd : dictGet (processSources terms (pre ++ bad :: post)).2 bad.name =
      some (SourceStats.mk 0 0 0) := by
    rw [processSources, processSources_spec]
    show dictGet (statsFold terms [] (pre ++ bad :: post)) bad.name = _
    rw [statsFold, List.foldl_append, List.foldl_cons]
    rw [show List.foldl (fun st s => dictSet st s.name (sourceRecordedStats terms s))
      (dictSet (List.foldl (fun st s => dictSet st s.name (sourceRecordedStats terms s)) [] pre)
        bad.name (sourceRecordedStats terms bad)) post =
      statsFold terms (dictSet (List.foldl (fun st s => dictSet st s.name
        (sourceRecordedStats terms s)) [] pre) bad.name
        (sourceRecordedStats terms bad)) post from rfl]
    rw [statsFold_get_of_not_mem terms post _ _
      (fun s hs => hname s (List.mem_append_right _ hs))]
    rw [hrec]
    exact dictGet_dictSet_self _ _ _
  have hplatNe : ∀ p ∈ get_new_internships (load_seen_internships readRes)
      (processSources terms (pre ++ bad :: post)).1, p.platform ≠ bad.name := by
    intro p hp
    have hagg : p ∈ (processSources terms (pre ++ bad :: post)).1 :=
      List.mem_of_mem_filter hp
    rw [processSources, processSources_spec] at hagg
    simp only [List.nil_append] at hagg
    rw [List.mem_join] at hagg
    obtain ⟨l, hl, hpl⟩ := hagg
    rw [List.mem_map] at hl
    obtain ⟨s, hs, rfl⟩ := hl
    have hok : ∀ s' ∈ pre ++ post, p ∈ sourceContribution terms s' →
        p.platform ≠ bad.name := by
      intro s' hs' hpl'
      cases hfetch : s'.fetchRes with
      | error err => simp [sourceContribution, hfetch] at hpl'
      | ok raw =>
        have hraw : p ∈ raw := by
          simp only [sourceContribution, hfetch, filter_by_domain] at hpl'
          exact List.mem_of_mem_filter hpl'
        rw [hplat s' hs' raw hfetch p hraw]
        exact hname s' hs'
    rcases List.mem_append.mp hs with hsp | hsc
    · exact hok s (List.mem_append_left _ hsp) hpl
    · rcases List.mem_cons.mp hsc with rfl | hsp2
      · rw [hcontrib] at hpl
        cases hpl
      · exact hok s (List.mem_append_right _ hsp2) hpl
  refine ⟨hfst, hsnd, ?_, ?_, ?_⟩
  · rw [run_check_none, run_check_none]
    show get_new_internships _ _ = get_new_internships _ _
    rw [hfst]
  · rw [run_check_none, run_check_none]
    show notifyLoop _ _ = notifyLoop _ _
    rw [hfst]
  · rw [run_check_none]
    show dictGet (bumpNew (processSources terms (pre ++ bad :: post)).2
      (get_new_internships (load_seen_internships readRes)
        (processSources terms (pre ++ bad :: post)).1)) bad.name = _
    rw [bumpNew_get_of_platform_ne _ _ _ hplatNe]
    exact hsnd

def pOkSend : Posting :=
  { dupPostingA with id := "n1", name := "ML Intern" }

def pFailSend : Posting :=
  { dupPostingA with id := "n2", name := "AI Intern" }

def pLinked : Posting :=
  { dupPostingA with
    id := "n3"
    platform := "LinkedIn"
    name := "Data Science Intern" }

def srcA : SourceRun :=
  { name := "AICTE", fetchRes := Except.ok [pOkSend] }

def srcBadW : SourceRun :=
  { name := "Internshala", fetchRes := Except.error (PyErr.mk "timeout") }

def srcC : SourceRun :=
  { name := "LinkedIn", fetchRes := Except.ok [pLinked] }

theorem source_failure_isolated_witness :
    srcBadW.fetchRes = Except.error (PyErr.mk "timeout") ∧
    dictGet (processSources ["ml", "data science"] [srcA, srcBadW, srcC]).2
      "Internshala" = some (SourceStats.mk 0 0 0) ∧
    (run_check (CycleEnv.mk ["ml", "data science"] [srcA, srcBadW, srcC]
        ReadOutcome.missing [] (fun _ => true) false none)).newPostings =
      (run_check (CycleEnv.mk ["ml", "data science"] [srcA, srcC]
        ReadOutcome.missing [] (fun _ => true) false none)).newPostings ∧
    dictGet (run_check (CycleEnv.mk ["ml", "data science"] [srcA, srcBadW, srcC]
        ReadOutcome.missing [] (fun _ => true) false none)).statsFinal
      "Internshala" = some (SourceStats.mk 0 0 0) := by
  have hplatW : ∀ s ∈ [srcA] ++ [srcC], ∀ raw, s.fetchRes = Except.ok raw →
      ∀ p ∈ raw, p.platform = s.name := by
    intro s hs raw hraw p hp
    have hs' : s = srcA ∨ s = srcC := by simpa using hs
    rcases hs' with rfl | rfl
    · have hr : [pOkSend] = raw := by
        simpa [srcA] using hraw
      rw [← hr] at hp
      have hp' : p = pOkSend := by simpa using hp
      rw [hp']
      rfl
    · have hr : [pLinked] = raw := by
        simpa [srcC] using hraw
      rw [← hr] at hp
      have hp' : p = pLinked := by simpa using hp
      rw [hp']
      rfl
  have h := source_failure_isolated ["ml", "data science"] [srcA] [srcC] srcBadW
    (PyErr.mk "timeout") ReadOutcome.missing [] (fun _ => true) false rfl
    (by decide) hplatW
  exact ⟨rfl, h.2.1, h.2.2.1, h.2.2.2.2⟩

/-! ## C10 -/

theorem myCountP_le (q : Posting → Bool) (l : List Posting) :
    l.countP q ≤ l.length := by
  induction l with
  | nil => simp
  | cons a t ih =>
    by_cases hq : q a <;> simp [List.countP_cons, hq] <;> omega

theorem myCountP_lt (q : Posting → Bool) (l : List Posting) (p : Posting)
    (hp : p ∈ l) (hq : q p = false) : l.countP q < l.length := by
  induction l with
  | nil => cases hp
  | cons a t ih =>
    rcases List.mem_cons.mp hp with rfl | h
    · have hle := myCountP_le q t
      simp [List.countP_cons, hq]
      omega
    · have hlt := ih h
      by_cases ha : q a <;> simp [List.countP_cons, ha] <;> omega

/-- C10: the total handed to send_summary is the notification-loop
counter, which counts exactly the sendPosting attempts that returned
success; when some new posting's delivery fails the total is strictly
below the number of new postings; and the per-platform new counters in
the same summary count every new posting of that platform, regardless
of delivery success. -/
theorem summary_sent_count_success_only (terms : List String)
    (sources : List SourceRun) (readRes : ReadOutcome) (ord : List String)
    (sendOK : Posting → Bool) (saveFails : Bool) (P : String)
    (s0 : SourceStats)
    (hP : dictGet (processSources terms sources).2 P = some s0) :
    (run_check (CycleEnv.mk terms sources readRes ord sendOK saveFails
        none)).summaryTotalNew =
      some ((run_check (CycleEnv.mk terms sources readRes ord sendOK saveFails
        none)).newPostings.countP sendOK) ∧
    (run_check (CycleEnv.mk terms sources readRes ord sendOK saveFails
        none)).sentCount =
      (run_check (CycleEnv.mk terms sources readRes ord sendOK saveFails
        none)).newPostings.countP sendOK ∧
    ((∃ p ∈ (run_check (CycleEnv.mk terms sources readRes ord sendOK saveFails
        none)).newPostings, sendOK p = false) →
      (run_check (CycleEnv.mk terms sources readRes ord sendOK saveFails
        none)).sentCount <
      (run_check (CycleEnv.mk terms sources readRes ord sendOK saveFails
        none)).newPostings.length) ∧
    dictGet (run_check (CycleEnv.mk terms sources readRes ord sendOK saveFails
        none)).statsFinal P =
      some (SourceStats.mk s0.found s0.filtered
        (s0.newCount + (run_check (CycleEnv.mk terms sources readRes ord sendOK
          saveFails none)).newPostings.countP (fun p => p.platform == P))) := by
  rw [run_check_none]
  refine ⟨?_, ?_, ?_, ?_⟩
  · exact congrArg some (notifyLoop_eq_countP _ _)
  · exact notifyLoop_eq_countP _ _
  · rintro ⟨p, hp, hsp⟩
    rw [notifyLoop_eq_countP]
    exact myCountP_lt _ _ p hp hsp
  · exact bumpNew_get _ _ _ _ hP

def sendOKW : Posting → Bool := fun p => p.id == "n1"

def srcW : SourceRun :=
  { name := "AICTE", fetchRes := Except.ok [pOkSend, pFailSend] }

theorem summary_sent_count_success_only_witness :
    dictGet (processSources ["ml", "ai"] [srcW]).2 "AICTE" =
      some (SourceStats.mk 2 2 0) ∧
    (run_check (CycleEnv.mk ["ml", "ai"] [srcW] ReadOutcome.missing []
        sendOKW false none)).sentCount = 1 ∧
    (run_check (CycleEnv.mk ["ml", "ai"] [srcW] ReadOutcome.missing []
        sendOKW false none)).newPostings.length = 2 ∧
    (run_check (CycleEnv.mk ["ml", "ai"] [srcW] ReadOutcome.missing []
        sendOKW false none)).sentCount <
      (run_check (CycleEnv.mk ["ml", "ai"] [srcW] ReadOutcome.missing []
        sendOKW false none)).newPostings.length ∧
    dictGet (run_check (CycleEnv.mk ["ml", "ai"] [srcW] ReadOutcome.missing []
        sendOKW false none)).statsFinal "AICTE" =
      some (SourceStats.mk 2 2 2) := by
  have h := summary_sent_count_success_only ["ml", "ai"] [srcW]
    ReadOutcome.missing [] sendOKW false "AICTE" (SourceStats.mk 2 2 0)
    (by decide)
  refine ⟨by decide, by decide, by decide, ?_, by decide⟩
  exact h.2.2.1 ⟨pFailSend, by decide, by decide⟩

/-! ## C7 -/

/-- C7 (amended): when the updated seen set fits within the 2000-entry
capacity, deduplication is idempotent across consecutive cycles — a
second run of get_new_internships over the same batch, starting from
the seen state loaded, updated and persisted by the first run, reports
no posting as new, whatever iteration order the persisted set had. -/
theorem dedup_idempotent_within_capacity (seen0 : List String)
    (batch : List Posting) (ord : List String)
    (hperm : ord.Perm (updateSeen seen0 (get_new_internships seen0 batch)))
    (hcap : ord.length ≤ 2000) :
    get_new_internships
      (load_seen_internships (ReadOutcome.ok (save_seen_internships ord)))
      batch = [] := by
  have hsave : save_seen_internships ord = ord := by
    rw [save_seen_internships, Nat.sub_eq_zero_of_le hcap, List.drop_zero]
  have hload : load_seen_internships
      (ReadOutcome.ok (save_seen_internships ord)) = ord := by
    rw [hsave]
    rfl
  rw [hload, get_new_internships, List.filter_eq_nil]
  intro p hp
  have hid : p.id ∈ updateSeen seen0 (get_new_internships seen0 batch) := by
    by_cases hmem : p.id ∈ seen0
    · exact mem_updateSeen_of_mem _ _ _ hmem
    · apply id_mem_updateSeen
      rw [get_new_internships, List.mem_filter]
      refine ⟨hp, ?_⟩
      have hfalse : seen0.contains p.id = false := by
        cases hcon : seen0.contains p.id with
        | false => rfl
        | true => exact absurd ((contains_iff_mem _ _).mp hcon) hmem
      rw [hfalse]
      decide
  have hcon : ord.contains p.id = true := (contains_iff_mem ord p.id).mpr
    (hperm.mem_iff.mpr hid)
  intro hcontra
  rw [hcon] at hcontra
  exact absurd hcontra (by decide)

def postingW7 : Posting := { dupPostingA with id := "w" }

theorem dedup_idempotent_within_capacity_witness :
    (["w"] : List String).Perm
      (updateSeen [] (get_new_internships [] [postingW7])) ∧
    (["w"] : List String).length ≤ 2000 ∧
    get_new_internships
      (load_seen_internships (ReadOutcome.ok (save_seen_internships ["w"])))
      [postingW7] = [] := by
  have hupd : updateSeen [] (get_new_internships [] [postingW7]) = ["w"] := by
    decide
  have hperm : (["w"] : List String).Perm
      (updateSeen [] (get_new_internships [] [postingW7])) := by
    rw [hupd]
  exact ⟨hperm, by decide,
    dedup_idempotent_within_capacity [] [postingW7] ["w"] hperm (by decide)⟩

def oldIds : List String := (List.range 2000).map (fun n => "id" ++ toString n)

def newestId : String := "NEW"

/-- The ids in insertion order: 2000 old ids followed by the one id
added in the current cycle. -/
def insertionOrderC2 : List String := oldIds ++ [newestId]

/-- A possible iteration order of the same set: CPython does not keep
sets in insertion order, so any permutation of the elements can be what
list(seen_ids) observes. -/
def iterOrderC2 : List String := newestId :: oldIds

def postingNEW : Posting := { dupPostingA with id := "NEW" }

theorem oldIds_length : oldIds.length = 2000 := by
  rw [oldIds, List.length_map, List.length_range]

theorem newest_not_in_oldIds : newestId ∉ oldIds := by
  intro h
  rw [oldIds, List.mem_map] at h
  obtain ⟨n, _, hn⟩ := h
  have hdata := congrArg String.data hn
  rw [string_data_append] at hdata
  have hid : ("id" : String).data = ['i', 'd'] := rfl
  have hnew : newestId.data = ['N', 'E', 'W'] := rfl
  rw [hid, hnew] at hdata
  have : 'i' = 'N' := (List.cons.injEq _ _ _ _).mp hdata |>.1
  exact absurd this (by decide)

theorem oldIds_contains_newest : oldIds.contains newestId = false := by
  cases hcon : oldIds.contains newestId with
  | false => rfl
  | true => exact absurd ((contains_iff_mem _ _).mp hcon) newest_not_in_oldIds

theorem get_new_oldIds_postingNEW :
    get_new_internships oldIds [postingNEW] = [postingNEW] := by
  have hid : postingNEW.id = newestId := rfl
  simp [get_new_internships, hid, oldIds_contains_newest, newest_not_in_oldIds]

theorem save_iterOrderC2 : save_seen_internships iterOrderC2 = oldIds := by
  have hlen : iterOrderC2.length = 2001 := by
    rw [iterOrderC2, List.length_cons, oldIds_length]
  rw [save_seen_internships, hlen]
  rw [show (2001 : Nat) - 2000 = 1 from rfl, iterOrderC2, List.drop_one,
    List.tail_cons]

/-- C7 counterexample to the claim as stated: with 2000 previously seen
ids and one genuinely new posting the updated set has 2001 elements, so
save_seen_internships truncates; under the displayed (valid) iteration
order the newly added id is the entry dropped, and a second run over the
same batch, starting from the persisted state, reports the same posting
as new again instead of reporting nothing. -/
theorem dedup_not_idempotent_beyond_capacity :
    iterOrderC2.Perm
      (updateSeen oldIds (get_new_internships oldIds [postingNEW])) ∧
    get_new_internships
      (load_seen_internships
        (ReadOutcome.ok (save_seen_internships iterOrderC2)))
      [postingNEW] = [postingNEW] := by
  constructor
  · have hupd : updateSeen oldIds (get_new_internships oldIds [postingNEW]) =
        oldIds ++ [newestId] := by
      rw [get_new_oldIds_postingNEW, updateSeen, List.foldl_cons, List.foldl_nil]
      rw [show postingNEW.id = newestId from rfl, oldIds_contains_newest]
      rfl
    rw [hupd, iterOrderC2]
    exact (List.perm_append_singleton newestId oldIds).symm
  · have hload : load_seen_internships
        (ReadOutcome.ok (save_seen_internships iterOrderC2)) = oldIds := by
      rw [save_iterOrderC2]
      simp only [load_seen_internships]
    rw [hload]
    exact get_new_oldIds_postingNEW

/-- C2 counterexample to the "most recently inserted entries are kept"
part of the claim: for a set holding 2001 ids whose most recent
insertion is newestId, the iteration order shown is a permutation of
the elements (hence a possible result of list(seen_ids) in CPython),
newestId is among the 2000 most recently inserted ids, yet the saved
list does not contain it — the truncation keeps a slice of the
iteration order, not the most recently inserted entries. -/
theorem save_seen_internships_drops_recent_entry :
    iterOrderC2.Perm insertionOrderC2 ∧
    newestId ∈ insertionOrderC2.drop (insertionOrderC2.length - 2000) ∧
    newestId ∉ save_seen_internships iterOrderC2 := by
  refine ⟨?_, ?_, ?_⟩
  · rw [iterOrderC2, insertionOrderC2]
    exact (List.perm_append_singleton newestId oldIds).symm
  · have hlen : insertionOrderC2.length = 2001 := by
      rw [insertionOrderC2, List.length_append, oldIds_length]
      rfl
    rw [hlen, show (2001 : Nat) - 2000 = 1 from rfl, insertionOrderC2]
    rw [List.drop_append_of_le_length (by rw [oldIds_length]; omega)]
    exact List.mem_append_right _ (List.mem_singleton_self _)
  · rw [save_iterOrderC2]
    exact newest_not_in_oldIds
